import Mathlib

/-!
Shallow embedding of the todo-extension popup logic (two revisions of the
same script: `src/popup.js` and the newer unnamed revision
`src/unnamed/part_000`).  Chrome storage is modelled as a record of the
three keys the scripts use; each `saveData` call is recorded as the list
of key names written, so that frame conditions ("no write to key X") are
observable.  `Date.now()` and `getTodayDateString()` are modelled as
explicit arguments, since they read the ambient clock.
-/

namespace TodoExtension

/-- Storage key constant, from the source: `const TODAY_TASKS_KEY = 'tasks'`. -/
def TODAY_TASKS_KEY : String := "tasks"

/-- Storage key constant, from the source: `const SPILLOVER_TASKS_KEY = 'spilloverTasks'`. -/
def SPILLOVER_TASKS_KEY : String := "spilloverTasks"

/-- Storage key constant, from the source: `const LAST_OPEN_DATE_KEY = 'lastOpenDate'`. -/
def LAST_OPEN_DATE_KEY : String := "lastOpenDate"

/-- Task record as created by `addTask` in part_000:
`{ id: Date.now(), text: text, completed: false }`. -/
structure Task where
  id : Nat
  text : String
  completed : Bool
deriving DecidableEq, Repr

/-- The persistent chrome.storage.sync state restricted to the three keys the
scripts use.  An absent task-list key behaves like `[]` at every use site
(part_000's `getData` returns `data[key] || []`; popup.js callers write
`await getData(...) || []`), so the two list keys are modelled directly as
lists.  `lastOpenDate` is kept as `Option String` because absence versus
presence of that key is what drives the rollover. -/
structure Storage where
  tasks : List Task
  spilloverTasks : List Task
  lastOpenDate : Option String
deriving DecidableEq, Repr

/-- The JavaScript value that reaches `handleDailyRollover`'s `lastOpenDate`
parameter.  In popup.js, `getData` resolves `data[key]`, so an absent key
arrives as `undefined`; in part_000, `getData` resolves `data[key] || []`,
so an absent key arrives as the empty array `[]` (which is truthy). -/
inductive JsDate where
  | str (s : String)
  | emptyList
  | undefinedV
deriving DecidableEq, Repr

/-- JavaScript truthiness of the `lastOpenDate` value: a string is truthy
iff non-empty, `[]` is truthy, `undefined` is falsy. -/
def JsDate.truthy : JsDate → Bool
  | .str s => s ≠ ""
  | .emptyList => true
  | .undefinedV => false

/-- JavaScript strict inequality `lastOpenDate !== todayDate` where
`todayDate` is a string: values of different types are always `!==`. -/
def JsDate.neqStr : JsDate → String → Bool
  | .str s, d => s ≠ d
  | .emptyList, _ => true
  | .undefinedV, _ => true

/-- Reading the `lastOpenDate` key through part_000's `getData`
(`resolve(data[key] || [])`): an absent key becomes the empty array. -/
def getDataDate_part000 (st : Storage) : JsDate :=
  match st.lastOpenDate with
  | some s => .str s
  | none => .emptyList

/-- Reading the `lastOpenDate` key through popup.js's `getData`
(`resolve(data[key])`): an absent key becomes `undefined`. -/
def getDataDate_popup (st : Storage) : JsDate :=
  match st.lastOpenDate with
  | some s => .str s
  | none => .undefinedV

/-- The record returned by `handleDailyRollover` for rendering. -/
structure RolloverResult where
  todayTasks : List Task
  spilloverTasks : List Task
deriving DecidableEq, Repr

/-- Embedding of `handleDailyRollover(todayTasks, lastOpenDate)` (identical
logic in both revisions).  `todayDate` is the value of
`getTodayDateString()`; the result is the updated storage, the list of
keys passed to `saveData` (in call order), and the returned record.
The final `getData(SPILLOVER_TASKS_KEY)` in the fall-through path reads
from the (possibly just-updated) storage. -/
def handleDailyRollover (todayTasks : List Task) (lastOpenDate : JsDate)
    (todayDate : String) (st : Storage) :
    Storage × List String × RolloverResult :=
  if lastOpenDate.truthy && lastOpenDate.neqStr todayDate then
    let unfinishedTasks := todayTasks.filter (fun task => !task.completed)
    let newTodayTasks : List Task := []
    let st' : Storage :=
      { tasks := newTodayTasks
        spilloverTasks := unfinishedTasks
        lastOpenDate := some todayDate }
    (st', [SPILLOVER_TASKS_KEY, TODAY_TASKS_KEY, LAST_OPEN_DATE_KEY],
      { todayTasks := newTodayTasks, spilloverTasks := unfinishedTasks })
  else
    let st' :=
      if !lastOpenDate.truthy then { st with lastOpenDate := some todayDate }
      else st
    let writes : List String :=
      if !lastOpenDate.truthy then [LAST_OPEN_DATE_KEY] else []
    let spilloverTasks := st'.spilloverTasks
    (st', writes, { todayTasks := todayTasks, spilloverTasks := spilloverTasks })

/-- The reconcile step as `initialize` performs it in part_000: read the
today list and the last-open date from storage (through part_000's
`getData`, so an absent date arrives as `[]`) and run
`handleDailyRollover`. -/
def reconcile_part000 (st : Storage) (todayDate : String) :
    Storage × List String × RolloverResult :=
  handleDailyRollover st.tasks (getDataDate_part000 st) todayDate st

/-- The reconcile step as `initialize` performs it in popup.js: an absent
last-open date arrives as `undefined`. -/
def reconcile_popup (st : Storage) (todayDate : String) :
    Storage × List String × RolloverResult :=
  handleDailyRollover st.tasks (getDataDate_popup st) todayDate st

/-- JavaScript `String.prototype.trim`: strip leading and trailing
whitespace.  Whitespace membership is modelled by `Char.isWhitespace`. -/
def jsTrim (s : String) : String :=
  ⟨((s.data.dropWhile Char.isWhitespace).reverse.dropWhile
      Char.isWhitespace).reverse⟩

/-- Embedding of `addTask` in part_000: trim the input; if the trimmed text
is truthy (non-empty), push `{ id: Date.now(), text, completed: false }`
onto the today list read from storage and save it under `TODAY_TASKS_KEY`;
otherwise do nothing.  `now` is the value of `Date.now()`.  Returns the
updated storage together with the keys written. -/
def addTask (input : String) (now : Nat) (st : Storage) :
    Storage × List String :=
  let text := jsTrim input
  if text ≠ "" then
    let tasks := st.tasks
    let newTask : Task := { id := now, text := text, completed := false }
    ({ st with tasks := tasks ++ [newTask] }, [TODAY_TASKS_KEY])
  else (st, [])

/-- The comparator `(a, b) => a.completed - b.completed` from
`renderLists` in part_000, with the JavaScript boolean-to-number coercion
made explicit. -/
def jsCmpCompleted (a b : Task) : Int :=
  (if a.completed then 1 else 0) - (if b.completed then 1 else 0)

/-- Stable insertion of one element into an already-processed list: the
element is placed before the first element it strictly precedes under the
comparator, and after everything else.  Building the sorted list with this
insertion, left to right, yields the unique stable order consistent with
the comparator — the result ES2019 (and V8) guarantee for
`Array.prototype.sort` with a comparator that induces a total preorder. -/
def sortInsert (cmp : Task → Task → Int) (a : Task) : List Task → List Task
  | [] => [a]
  | b :: l => if cmp a b < 0 then a :: b :: l else b :: sortInsert cmp a l

/-- Model of `array.slice().sort(cmp)` for a total-preorder comparator:
the stable sort of the list under `cmp` (the original array is not
mutated, since `slice()` copies). -/
def jsSort (cmp : Task → Task → Int) (l : List Task) : List Task :=
  l.foldl (fun acc a => sortInsert cmp a acc) []

/-- The display ordering `renderLists` computes in part_000:
`todayTasks.slice().sort((a, b) => a.completed - b.completed)`. -/
def presentationOrder (l : List Task) : List Task :=
  jsSort jsCmpCompleted l

/-- Embedding of `renderLists(todayTasks, spilloverTasks)` in part_000,
restricted to its effect on program state: it computes the two display
orderings (DOM construction is outside the model) and calls `saveData` on
nothing, so the storage passes through and the write list is empty. -/
def renderLists (st : Storage) :
    (List Task × List Task) × Storage × List String :=
  ((presentationOrder st.tasks, presentationOrder st.spilloverTasks), st, [])

/-- Model of `Array.prototype.findIndex`: index of the first element
satisfying the test, or `none` in place of `-1`. -/
def jsFindIndex (p : Task → Bool) : List Task → Option Nat
  | [] => none
  | t :: l => if p t then some 0 else (jsFindIndex p l).map (· + 1)

/-- Deletion as wired up in part_000: `renderLists` computes
`originalIndex = list.findIndex(t => t.id === task.id)` and only creates a
delete button when it is not `-1`; clicking it runs
`listArray.splice(index, 1)` and saves.  Net effect by task id: remove the
element at the first index whose id matches, or do nothing when no id
matches. -/
def deleteTask (l : List Task) (taskId : Nat) : List Task :=
  match jsFindIndex (fun t => t.id == taskId) l with
  | some i => l.eraseIdx i
  | none => l

/-- Completion toggling as wired up in part_000: the checkbox handler runs
`listArray[index].completed = checkbox.checked` at the `originalIndex`
found by id, and saves; no element is rendered (hence no handler exists)
for an id that is absent. -/
def toggleTask (l : List Task) (taskId : Nat) (checked : Bool) : List Task :=
  match jsFindIndex (fun t => t.id == taskId) l with
  | some i =>
    match l[i]? with
    | some t => l.set i { t with completed := checked }
    | none => l
  | none => l

/-- User-level operations on the stored state, as exposed by part_000:
add a task (with the `Date.now()` value at that moment), toggle or delete
a task by id in either list (`spill` selects the spillover list), or run
the daily reconcile with the current date string. -/
inductive Op where
  | add (text : String) (now : Nat)
  | toggle (spill : Bool) (taskId : Nat) (checked : Bool)
  | delete (spill : Bool) (taskId : Nat)
  | rollover (todayDate : String)
deriving DecidableEq, Repr

/-- Effect of one operation on storage. -/
def step (st : Storage) : Op → Storage
  | .add text now => (addTask text now st).1
  | .toggle spill taskId checked =>
    if spill then
      { st with spilloverTasks := toggleTask st.spilloverTasks taskId checked }
    else
      { st with tasks := toggleTask st.tasks taskId checked }
  | .delete spill taskId =>
    if spill then
      { st with spilloverTasks := deleteTask st.spilloverTasks taskId }
    else
      { st with tasks := deleteTask st.tasks taskId }
  | .rollover todayDate => (reconcile_part000 st todayDate).1

/-- Run a sequence of operations left to right. -/
def run (st : Storage) : List Op → Storage
  | [] => st
  | op :: ops => run (step st op) ops

/-- Id-uniqueness invariant: no two tasks in the today list share an id,
and no two tasks in the spillover list share an id. -/
def Inv (st : Storage) : Prop :=
  (st.tasks.map Task.id).Nodup ∧ (st.spilloverTasks.map Task.id).Nodup

/-- Freshness of one operation's clock reading: an `add` must see a
`Date.now()` value that is not already used as an id in the today list
(true whenever successive adds fall in distinct milliseconds, since ids
are past `Date.now()` readings); other operations read no clock. -/
def stepFresh (st : Storage) : Op → Prop
  | .add _ now => now ∉ st.tasks.map Task.id
  | _ => True

/-- Freshness along a whole run. -/
def FreshRun (st : Storage) : List Op → Prop
  | [] => True
  | op :: ops => stepFresh st op ∧ FreshRun (step st op) ops

/-! Theorems. -/

theorem sortInsert_of_not_completed (a : Task) (ha : a.completed = false) :
    ∀ (xs ys : List Task), (∀ x ∈ xs, x.completed = false) →
      (∀ y ∈ ys, y.completed = true) →
      sortInsert jsCmpCompleted a (xs ++ ys) = xs ++ a :: ys := by
  intro xs
  induction xs with
  | nil =>
    intro ys _ hys
    cases ys with
    | nil => rfl
    | cons y ys' =>
      have hy := hys y (List.mem_cons_self _ _)
      simp [sortInsert, jsCmpCompleted, ha, hy]
  | cons x xs' ih =>
    intro ys hxs hys
    have hx := hxs x (List.mem_cons_self _ _)
    have ih' := ih ys (fun u hu => hxs u (List.mem_cons_of_mem _ hu)) hys
    simp [sortInsert, jsCmpCompleted, ha, hx, ih']

theorem sortInsert_of_completed (a : Task) (ha : a.completed = true) :
    ∀ l : List Task, sortInsert jsCmpCompleted a l = l ++ [a] := by
  intro l
  induction l with
  | nil => rfl
  | cons b l' ih =>
    cases hb : b.completed <;>
      simp [sortInsert, jsCmpCompleted, ha, hb, ih]

theorem jsSort_loop_partition :
    ∀ (l xs ys : List Task), (∀ x ∈ xs, x.completed = false) →
      (∀ y ∈ ys, y.completed = true) →
      l.foldl (fun acc a => sortInsert jsCmpCompleted a acc) (xs ++ ys) =
        (xs ++ l.filter (fun t => !t.completed)) ++
          (ys ++ l.filter (fun t => t.completed)) := by
  intro l
  induction l with
  | nil => intro xs ys _ _; simp
  | cons a l' ih =>
    intro xs ys hxs hys
    cases ha : a.completed with
    | false =>
      have h1 : sortInsert jsCmpCompleted a (xs ++ ys) = (xs ++ [a]) ++ ys := by
        rw [sortInsert_of_not_completed a ha xs ys hxs hys]
        simp
      have hxs' : ∀ x ∈ xs ++ [a], x.completed = false := by
        intro u hu
        rcases List.mem_append.mp hu with h | h
        · exact hxs u h
        · simp at h; subst h; exact ha
      have h2 := ih (xs ++ [a]) ys hxs' hys
      simp only [List.foldl_cons, h1, h2, List.filter_cons, ha]
      simp
    | true =>
      have h1 : sortInsert jsCmpCompleted a (xs ++ ys) = xs ++ (ys ++ [a]) := by
        rw [sortInsert_of_completed a ha (xs ++ ys)]
        simp
      have hys' : ∀ y ∈ ys ++ [a], y.completed = true := by
        intro u hu
        rcases List.mem_append.mp hu with h | h
        · exact hys u h
        · simp at h; subst h; exact ha
      have h2 := ih xs (ys ++ [a]) hxs hys'
      simp only [List.foldl_cons, h1, h2, List.filter_cons, ha]
      simp

/-- C4: `presentationOrder` is a stable partition — every incomplete task
comes before every completed task and each group keeps its original
relative order (the order is exactly: the incomplete tasks filtered in
list order, then the completed tasks filtered in list order); on the
spec's four-task example it yields ids 2, 4, 1, 3. -/
theorem presentationOrder_stable_partition :
    (∀ l : List Task,
      presentationOrder l =
        l.filter (fun t => !t.completed) ++ l.filter (fun t => t.completed)) ∧
    (presentationOrder
        [{ id := 1, text := "t1", completed := true },
         { id := 2, text := "t2", completed := false },
         { id := 3, text := "t3", completed := true },
         { id := 4, text := "t4", completed := false }]).map Task.id =
      [2, 4, 1, 3] := by
  constructor
  · intro l
    have h := jsSort_loop_partition l [] [] (by simp) (by simp)
    simpa [presentationOrder, jsSort] using h
  · decide

/-- C9: `renderLists` never rewrites the persisted lists — after it runs,
the stored today list and stored spillover list are element-for-element
what they were, and it issues no `saveData` write at all (the sort runs on
a `slice()` copy used only for display). -/
theorem renderLists_no_write (st : Storage) :
    (renderLists st).2.1.tasks = st.tasks ∧
    (renderLists st).2.1.spilloverTasks = st.spilloverTasks ∧
    (renderLists st).2.2 = ([] : List String) :=
  ⟨rfl, rfl, rfl⟩

/-- C1: when a last-open date is stored and differs from the current date,
reconcile persists and returns a spillover list that is exactly the
incomplete tasks of the input today list in their original relative order
(wholesale replacement), persists and returns an empty today list, and
persists the current date.  The stored date is assumed non-empty, as every
date the program stores is a `YYYY-MM-DD` string. -/
theorem rollover_day_transition_spec (st : Storage) (d0 todayDate : String)
    (hdate : st.lastOpenDate = some d0) (h0 : d0 ≠ "") (hne : d0 ≠ todayDate) :
    reconcile_part000 st todayDate =
      ({ tasks := [],
         spilloverTasks := st.tasks.filter (fun t => !t.completed),
         lastOpenDate := some todayDate },
       [SPILLOVER_TASKS_KEY, TODAY_TASKS_KEY, LAST_OPEN_DATE_KEY],
       { todayTasks := [],
         spilloverTasks := st.tasks.filter (fun t => !t.completed) }) := by
  unfold reconcile_part000 getDataDate_part000 handleDailyRollover
  rw [hdate]
  simp [JsDate.truthy, JsDate.neqStr, h0, hne]

/-- Witness for C1 at the spec's own rollover example (plus a stale
completed spillover entry that gets discarded by the wholesale
replacement). -/
theorem rollover_day_transition_spec_witness :
    reconcile_part000
        { tasks := [{ id := 1, text := "a", completed := true },
                    { id := 2, text := "b", completed := false },
                    { id := 3, text := "c", completed := false }],
          spilloverTasks := [{ id := 9, text := "z", completed := true }],
          lastOpenDate := some "2026-10-11" } "2026-10-12" =
      ({ tasks := [],
         spilloverTasks := [{ id := 2, text := "b", completed := false },
                            { id := 3, text := "c", completed := false }],
         lastOpenDate := some "2026-10-12" },
       [SPILLOVER_TASKS_KEY, TODAY_TASKS_KEY, LAST_OPEN_DATE_KEY],
       { todayTasks := [],
         spilloverTasks := [{ id := 2, text := "b", completed := false },
                            { id := 3, text := "c", completed := false }] }) := by
  have h := rollover_day_transition_spec
    { tasks := [{ id := 1, text := "a", completed := true },
                { id := 2, text := "b", completed := false },
                { id := 3, text := "c", completed := false }],
      spilloverTasks := [{ id := 9, text := "z", completed := true }],
      lastOpenDate := some "2026-10-11" }
    "2026-10-11" "2026-10-12" rfl (by decide) (by decide)
  exact h.trans (by decide)

/-- C2: evaluation of both revisions on a first-ever run (no stored
last-open date) with a non-empty today list and a non-empty stored
spillover list.  In part_000, `getData` turns the absent date into `[]`,
which is truthy and `!==` the date string, so reconcile wrongly performs a
rollover: it empties the today list, wholesale-replaces the spillover
list, and returns the rolled-over lists — the claimed first-run behavior
(leave both lists untouched, persist only the date) is what the older
popup.js revision does, shown in the second conjunct. -/
theorem firstRun_part000_rolls_over :
    reconcile_part000
        { tasks := [{ id := 1, text := "a", completed := true }],
          spilloverTasks := [{ id := 2, text := "b", completed := false }],
          lastOpenDate := none } "2026-10-12" =
      ({ tasks := [], spilloverTasks := [], lastOpenDate := some "2026-10-12" },
       [SPILLOVER_TASKS_KEY, TODAY_TASKS_KEY, LAST_OPEN_DATE_KEY],
       { todayTasks := [], spilloverTasks := [] }) ∧
    reconcile_popup
        { tasks := [{ id := 1, text := "a", completed := true }],
          spilloverTasks := [{ id := 2, text := "b", completed := false }],
          lastOpenDate := none } "2026-10-12" =
      ({ tasks := [{ id := 1, text := "a", completed := true }],
         spilloverTasks := [{ id := 2, text := "b", completed := false }],
         lastOpenDate := some "2026-10-12" },
       [LAST_OPEN_DATE_KEY],
       { todayTasks := [{ id := 1, text := "a", completed := true }],
         spilloverTasks := [{ id := 2, text := "b", completed := false }] }) := by
  constructor <;> decide

theorem reconcile_lastOpenDate (st : Storage) (d : String) :
    ((reconcile_part000 st d).1).lastOpenDate = some d := by
  unfold reconcile_part000 getDataDate_part000 handleDailyRollover
  cases hld : st.lastOpenDate with
  | none => simp [JsDate.truthy, JsDate.neqStr]
  | some s =>
    by_cases h0 : s = ""
    · subst h0; simp [JsDate.truthy, JsDate.neqStr]
    · by_cases hd : s = d
      · subst hd; simp [JsDate.truthy, JsDate.neqStr, h0, hld]
      · simp [JsDate.truthy, JsDate.neqStr, h0, hd]

theorem reconcile_noop_of_date_current (st : Storage) (d : String)
    (h : st.lastOpenDate = some d) :
    (reconcile_part000 st d).1 = st ∧
    TODAY_TASKS_KEY ∉ (reconcile_part000 st d).2.1 ∧
    SPILLOVER_TASKS_KEY ∉ (reconcile_part000 st d).2.1 ∧
    (reconcile_part000 st d).2.2 =
      { todayTasks := st.tasks, spilloverTasks := st.spilloverTasks } := by
  obtain ⟨tasks, spill, ld⟩ := st
  simp only [Storage.mk.injEq] at h ⊢
  subst h
  unfold reconcile_part000 getDataDate_part000 handleDailyRollover
  by_cases h0 : d = ""
  · subst h0
    simp [JsDate.truthy, JsDate.neqStr, TODAY_TASKS_KEY, SPILLOVER_TASKS_KEY,
      LAST_OPEN_DATE_KEY]
  · simp [JsDate.truthy, JsDate.neqStr, h0]

/-- C3: running reconcile twice with the same current date mutates the
persisted state on at most the first call — the second call leaves the
storage exactly as the first call left it, issues no write to the today
or spillover keys, and returns the today and spillover lists unchanged. -/
theorem reconcile_idempotent_same_day (st : Storage) (d : String) :
    (reconcile_part000 (reconcile_part000 st d).1 d).1 =
        (reconcile_part000 st d).1 ∧
    TODAY_TASKS_KEY ∉ (reconcile_part000 (reconcile_part000 st d).1 d).2.1 ∧
    SPILLOVER_TASKS_KEY ∉ (reconcile_part000 (reconcile_part000 st d).1 d).2.1 ∧
    (reconcile_part000 (reconcile_part000 st d).1 d).2.2 =
      { todayTasks := (reconcile_part000 st d).1.tasks,
        spilloverTasks := (reconcile_part000 st d).1.spilloverTasks } :=
  reconcile_noop_of_date_current (reconcile_part000 st d).1 d
    (reconcile_lastOpenDate st d)

theorem jsTrim_of_whitespace (s : String) (h : ∀ c ∈ s.data, c.isWhitespace) :
    jsTrim s = "" := by
  unfold jsTrim
  rw [List.dropWhile_eq_nil_iff.mpr h]
  rfl

/-- C5: an input that is empty or consists only of whitespace creates no
task and issues no `saveData` write — the storage is returned untouched
(and the model is total, so no error arises). -/
theorem addTask_whitespace_noop (s : String) (now : Nat) (st : Storage)
    (h : ∀ c ∈ s.data, c.isWhitespace) :
    addTask s now st = (st, []) := by
  unfold addTask
  simp [jsTrim_of_whitespace s h]

/-- Witness for C5 on a blank-and-tab input. -/
theorem addTask_whitespace_noop_witness :
    addTask " \t " 7
        { tasks := [{ id := 1, text := "a", completed := false }],
          spilloverTasks := [], lastOpenDate := none } =
      ({ tasks := [{ id := 1, text := "a", completed := false }],
         spilloverTasks := [], lastOpenDate := none }, []) :=
  addTask_whitespace_noop " \t " 7 _ (by decide)

/-- C6: an input with non-empty trimmed form appends exactly one task —
with the freshly read `Date.now()` id, the trimmed text, and
`completed := false` — after all pre-existing today tasks, which keep
their values and order; only the today key is written, never the
spillover key. -/
theorem addTask_appends (s : String) (now : Nat) (st : Storage)
    (h : jsTrim s ≠ "") :
    addTask s now st =
      ({ st with tasks :=
          st.tasks ++ [{ id := now, text := jsTrim s, completed := false }] },
       [TODAY_TASKS_KEY]) ∧
    (addTask s now st).1.tasks.length = st.tasks.length + 1 ∧
    (addTask s now st).1.spilloverTasks = st.spilloverTasks ∧
    SPILLOVER_TASKS_KEY ∉ (addTask s now st).2 := by
  have he : addTask s now st =
      ({ st with tasks :=
          st.tasks ++ [{ id := now, text := jsTrim s, completed := false }] },
       [TODAY_TASKS_KEY]) := by
    unfold addTask
    simp [h]
  refine ⟨he, ?_, ?_, ?_⟩ <;>
    simp [he, TODAY_TASKS_KEY, SPILLOVER_TASKS_KEY]

/-- Witness for C6 on the input `" hi "`. -/
theorem addTask_appends_witness :
    jsTrim " hi " ≠ "" ∧
    addTask " hi " 7
        { tasks := [{ id := 1, text := "a", completed := true }],
          spilloverTasks := [{ id := 2, text := "b", completed := false }],
          lastOpenDate := some "2026-10-12" } =
      ({ tasks := [{ id := 1, text := "a", completed := true },
                   { id := 7, text := "hi", completed := false }],
         spilloverTasks := [{ id := 2, text := "b", completed := false }],
         lastOpenDate := some "2026-10-12" },
       [TODAY_TASKS_KEY]) := by
  refine ⟨by decide, ?_⟩
  have h := (addTask_appends " hi " 7
    { tasks := [{ id := 1, text := "a", completed := true }],
      spilloverTasks := [{ id := 2, text := "b", completed := false }],
      lastOpenDate := some "2026-10-12" } (by decide)).1
  exact h.trans (by decide)

theorem jsFindIndex_append_cons (t : Task) (tid : Nat) (ht : t.id = tid) :
    ∀ (l₁ l₂ : List Task), (∀ u ∈ l₁, u.id ≠ tid) →
      jsFindIndex (fun u => u.id == tid) (l₁ ++ t :: l₂) = some l₁.length := by
  intro l₁
  induction l₁ with
  | nil =>
    intro l₂ _
    simp [jsFindIndex, ht]
  | cons u l₁' ih =>
    intro l₂ h
    have hu : (u.id == tid) = false := by
      simp [h u (List.mem_cons_self _ _)]
    simp [jsFindIndex, hu,
      ih l₂ (fun v hv => h v (List.mem_cons_of_mem _ hv))]

theorem jsFindIndex_eq_none (tid : Nat) :
    ∀ l : List Task, (∀ u ∈ l, u.id ≠ tid) →
      jsFindIndex (fun u => u.id == tid) l = none := by
  intro l
  induction l with
  | nil => intro _; rfl
  | cons u l' ih =>
    intro h
    have hu : (u.id == tid) = false := by
      simp [h u (List.mem_cons_self _ _)]
    simp [jsFindIndex, hu, ih (fun v hv => h v (List.mem_cons_of_mem _ hv))]

theorem eraseIdx_append_cons (t : Task) :
    ∀ (l₁ l₂ : List Task), (l₁ ++ t :: l₂).eraseIdx l₁.length = l₁ ++ l₂ := by
  intro l₁
  induction l₁ with
  | nil => intro l₂; rfl
  | cons u l₁' ih => intro l₂; simp [List.eraseIdx, ih l₂]

/-- C7: deleting by id removes exactly the task carrying that id and keeps
every other task's value and relative position (first conjunct, for a list
decomposed around the unique occurrence of the id), and deleting an id
that occurs nowhere leaves the list unchanged (second conjunct). -/
theorem deleteTask_spec :
    (∀ (l₁ l₂ : List Task) (t : Task) (tid : Nat),
        t.id = tid → (∀ u ∈ l₁, u.id ≠ tid) →
        deleteTask (l₁ ++ t :: l₂) tid = l₁ ++ l₂) ∧
    (∀ (l : List Task) (tid : Nat), (∀ u ∈ l, u.id ≠ tid) →
        deleteTask l tid = l) := by
  constructor
  · intro l₁ l₂ t tid ht h
    unfold deleteTask
    rw [jsFindIndex_append_cons t tid ht l₁ l₂ h]
    exact eraseIdx_append_cons t l₁ l₂
  · intro l tid h
    unfold deleteTask
    rw [jsFindIndex_eq_none tid l h]

/-- Witness for C7: delete an existing id from a three-task list and a
missing id from a one-task list. -/
theorem deleteTask_spec_witness :
    deleteTask [{ id := 1, text := "a", completed := false },
                { id := 2, text := "b", completed := true },
                { id := 3, text := "c", completed := false }] 2 =
      [{ id := 1, text := "a", completed := false },
       { id := 3, text := "c", completed := false }] ∧
    deleteTask [{ id := 1, text := "a", completed := false }] 5 =
      [{ id := 1, text := "a", completed := false }] := by
  constructor
  · exact deleteTask_spec.1 [{ id := 1, text := "a", completed := false }]
      [{ id := 3, text := "c", completed := false }]
      { id := 2, text := "b", completed := true } 2 rfl (by decide)
  · exact deleteTask_spec.2 [{ id := 1, text := "a", completed := false }] 5
      (by decide)

/-- C10: whenever reconcile takes its day-transition branch (the stored
`lastOpenDate` value is truthy and differs from the current date), every
task in the resulting spillover list is an unmodified record of the
previous today list — the spillover list equals the filter of the today
list, so each transferred task keeps its id, text and completed fields,
each has `completed = false`, and they form a subsequence of the old
today list. -/
theorem rollover_transfers_unmodified (st : Storage) (d : String)
    (h : ((getDataDate_part000 st).truthy &&
      (getDataDate_part000 st).neqStr d) = true) :
    (reconcile_part000 st d).1.spilloverTasks =
        st.tasks.filter (fun t => !t.completed) ∧
    (reconcile_part000 st d).2.2.spilloverTasks =
        st.tasks.filter (fun t => !t.completed) ∧
    (∀ t ∈ (reconcile_part000 st d).2.2.spilloverTasks,
        t.completed = false ∧ t ∈ st.tasks) ∧
    List.Sublist (reconcile_part000 st d).2.2.spilloverTasks st.tasks := by
  have he : reconcile_part000 st d =
      ({ tasks := [],
         spilloverTasks := st.tasks.filter (fun t => !t.completed),
         lastOpenDate := some d },
       [SPILLOVER_TASKS_KEY, TODAY_TASKS_KEY, LAST_OPEN_DATE_KEY],
       { todayTasks := [],
         spilloverTasks := st.tasks.filter (fun t => !t.completed) }) := by
    unfold reconcile_part000 handleDailyRollover
    simp [h]
  refine ⟨by rw [he], by rw [he], ?_, ?_⟩
  · intro t ht
    rw [he] at ht
    simp only [List.mem_filter, Bool.not_eq_true'] at ht
    exact ⟨ht.2, ht.1⟩
  · rw [he]
    exact List.filter_sublist st.tasks

/-- Witness for C10 on a concrete mixed today list. -/
theorem rollover_transfers_unmodified_witness :
    ((getDataDate_part000
        { tasks := [{ id := 1, text := "a", completed := true },
                    { id := 2, text := "b", completed := false }],
          spilloverTasks := [], lastOpenDate := some "2026-10-11" }).truthy &&
      (getDataDate_part000
        { tasks := [{ id := 1, text := "a", completed := true },
                    { id := 2, text := "b", completed := false }],
          spilloverTasks := [],
          lastOpenDate := some "2026-10-11" }).neqStr "2026-10-12") = true ∧
    (reconcile_part000
        { tasks := [{ id := 1, text := "a", completed := true },
                    { id := 2, text := "b", completed := false }],
          spilloverTasks := [],
          lastOpenDate := some "2026-10-11" } "2026-10-12").1.spilloverTasks =
      [{ id := 2, text := "b", completed := false }] := by
  refine ⟨by decide, ?_⟩
  have h := (rollover_transfers_unmodified
    { tasks := [{ id := 1, text := "a", completed := true },
                { id := 2, text := "b", completed := false }],
      spilloverTasks := [], lastOpenDate := some "2026-10-11" }
    "2026-10-12" (by decide)).1
  exact h.trans (by decide)

theorem addTask_eq_append (s : String) (now : Nat) (st : Storage)
    (h : jsTrim s ≠ "") :
    addTask s now st =
      ({ st with tasks :=
          st.tasks ++ [{ id := now, text := jsTrim s, completed := false }] },
       [TODAY_TASKS_KEY]) := by
  unfold addTask
  simp [h]

theorem addTask_eq_noop (s : String) (now : Nat) (st : Storage)
    (h : jsTrim s = "") : addTask s now st = (st, []) := by
  unfold addTask
  simp [h]

theorem set_of_getElem? {α : Type} :
    ∀ (l : List α) (i : Nat) (a : α), l[i]? = some a → l.set i a = l := by
  intro l
  induction l with
  | nil => intro i a h; simp at h
  | cons x l' ih =>
    intro i a h
    cases i with
    | zero => simp at h; subst h; rfl
    | succ j =>
      simp only [List.getElem?_cons_succ] at h
      simp [List.set, ih j a h]

theorem toggleTask_map_id (l : List Task) (tid : Nat) (c : Bool) :
    (toggleTask l tid c).map Task.id = l.map Task.id := by
  unfold toggleTask
  cases hf : jsFindIndex (fun t => t.id == tid) l with
  | none => rfl
  | some i =>
    cases hg : l[i]? with
    | none => simp [hg]
    | some t =>
      simp only [hg]
      rw [List.map_set]
      apply set_of_getElem?
      rw [List.getElem?_map, hg]
      rfl

theorem deleteTask_map_id_nodup (l : List Task) (tid : Nat)
    (h : (l.map Task.id).Nodup) : ((deleteTask l tid).map Task.id).Nodup := by
  unfold deleteTask
  cases jsFindIndex (fun t => t.id == tid) l with
  | none => exact h
  | some i => exact h.sublist ((List.eraseIdx_sublist l i).map Task.id)

theorem reconcile_storage_cases (st : Storage) (d : String) :
    (reconcile_part000 st d).1 =
        { tasks := [],
          spilloverTasks := st.tasks.filter (fun t => !t.completed),
          lastOpenDate := some d } ∨
    (reconcile_part000 st d).1 = { st with lastOpenDate := some d } ∨
    (reconcile_part000 st d).1 = st := by
  unfold reconcile_part000 handleDailyRollover
  by_cases h1 : (getDataDate_part000 st).truthy = true
  · by_cases h2 : (getDataDate_part000 st).neqStr d = true
    · left; simp [h1, h2]
    · right; right; simp [h1, h2]
  · rw [Bool.not_eq_true] at h1
    right; left; simp [h1]

theorem step_preserves_inv (st : Storage) (op : Op) (h : Inv st)
    (hf : stepFresh st op) : Inv (step st op) := by
  cases op with
  | add text now =>
    by_cases ht : jsTrim text = ""
    · simpa only [step, addTask_eq_noop text now st ht] using h
    · simp only [step, addTask_eq_append text now st ht]
      refine ⟨?_, h.2⟩
      simp only [List.map_append, List.map_cons, List.map_nil]
      rw [List.nodup_append]
      refine ⟨h.1, by simp, ?_⟩
      intro a ha hb
      simp only [List.mem_singleton] at hb
      subst hb
      exact hf ha
  | toggle spill tid c =>
    cases spill with
    | false =>
      have hl : ((toggleTask st.tasks tid c).map Task.id).Nodup := by
        rw [toggleTask_map_id]; exact h.1
      exact ⟨hl, h.2⟩
    | true =>
      have hl : ((toggleTask st.spilloverTasks tid c).map Task.id).Nodup := by
        rw [toggleTask_map_id]; exact h.2
      exact ⟨h.1, hl⟩
  | delete spill tid =>
    cases spill with
    | false => exact ⟨deleteTask_map_id_nodup _ _ h.1, h.2⟩
    | true => exact ⟨h.1, deleteTask_map_id_nodup _ _ h.2⟩
  | rollover d =>
    have hgoal : Inv (reconcile_part000 st d).1 := by
      rcases reconcile_storage_cases st d with he | he | he <;> rw [he]
      · exact ⟨by simp,
          h.1.sublist ((List.filter_sublist st.tasks).map Task.id)⟩
      · exact h
      · exact h
    exact hgoal

/-- C8 (amended): ids are assigned at creation from `Date.now()`, and they
stay unique within each list under any sequence of add, toggle, delete
and rollover operations, provided each add reads a `Date.now()` value not
already present as an id in the today list — which holds whenever
successive adds fall in distinct milliseconds, but is not guaranteed by
the code for two adds within one millisecond. -/
theorem run_preserves_unique_ids :
    ∀ (ops : List Op) (st : Storage), Inv st → FreshRun st ops →
      Inv (run st ops) := by
  intro ops
  induction ops with
  | nil => intro st h _; exact h
  | cons op ops ih =>
    intro st h hf
    exact ih (step st op) (step_preserves_inv st op h hf.1) hf.2

instance instDecidableStepFresh (st : Storage) (op : Op) :
    Decidable (stepFresh st op) := by
  cases op <;> simp only [stepFresh] <;> infer_instance

instance instDecidableFreshRun :
    (st : Storage) → (ops : List Op) → Decidable (FreshRun st ops)
  | _, [] => .isTrue trivial
  | st, op :: ops =>
    have _h2 : Decidable (FreshRun (step st op) ops) :=
      instDecidableFreshRun (step st op) ops
    inferInstanceAs (Decidable (_ ∧ _))

/-- Witness for the amended C8 on a run mixing all four operations with
adds at distinct clock readings. -/
theorem run_preserves_unique_ids_witness :
    Inv (run
      { tasks := [], spilloverTasks := [], lastOpenDate := some "2026-10-11" }
      [Op.add "a" 5, Op.add "b" 6, Op.rollover "2026-10-12", Op.add "c" 7,
       Op.toggle true 5 true, Op.delete false 7]) :=
  run_preserves_unique_ids _ _ (by constructor <;> decide) (by decide)

/-- C8 counterexample: two adds whose `Date.now()` readings coincide (the
same millisecond) put two tasks with the same id into the today list, so
the uniqueness the claim states for every operation sequence fails. -/
theorem duplicate_id_same_millisecond :
    ¬ Inv (run
      { tasks := [], spilloverTasks := [], lastOpenDate := some "2026-10-12" }
      [Op.add "a" 5, Op.add "b" 5]) := by
  intro h
  exact absurd h.1 (by decide)

end TodoExtension
